import Mathlib

/-!
# Verifikation des RA-Micro Aktenimport-Moduls (modules/aktenimport.py)

Flache Einbettung der Import-Pipeline: Zeichenklassen und ein
Ableitungs-basierter Mustervergleich (Python `re.search` mit
`re.IGNORECASE`; `re.MULTILINE` ist für die vorkommenden Muster ohne
Anker wirkungslos), die geordnete Mustertabelle `DOKUMENT_MUSTER`, die
Seitenklassifizierung, die Dokument-Segmentierung als Zustandsmaschine,
die Konfidenz- und Qualitätsbewertung (Gleitkommawerte als ℚ, ganze
Zahlen als ℤ; die bewiesenen Schranken hängen nicht von
Rundungsdetails ab), der Gegenstandswert-Parser sowie die
Fehlerbehandlung von `analysiere_pdf` und `BatchImporter`.
-/

/-- Kleinschreibung wie bei `re.IGNORECASE` für die im Modul
vorkommenden Zeichen (ASCII-Buchstaben und deutsche Umlaute). -/
def caseFold (c : Char) : Char :=
  match c with
  | 'A' => 'a' | 'B' => 'b' | 'C' => 'c' | 'D' => 'd' | 'E' => 'e'
  | 'F' => 'f' | 'G' => 'g' | 'H' => 'h' | 'I' => 'i' | 'J' => 'j'
  | 'K' => 'k' | 'L' => 'l' | 'M' => 'm' | 'N' => 'n' | 'O' => 'o'
  | 'P' => 'p' | 'Q' => 'q' | 'R' => 'r' | 'S' => 's' | 'T' => 't'
  | 'U' => 'u' | 'V' => 'v' | 'W' => 'w' | 'X' => 'x' | 'Y' => 'y'
  | 'Z' => 'z' | 'Ä' => 'ä' | 'Ö' => 'ö' | 'Ü' => 'ü'
  | c => c

/-- Zeichenklasse `\w` (Buchstaben, Ziffern, Unterstrich; deutsche
Sonderbuchstaben wie in den Texten dieses Moduls). -/
def istWortzeichen (c : Char) : Bool :=
  c.isAlphanum || c == '_' || c == 'ä' || c == 'ö' || c == 'ü'
    || c == 'Ä' || c == 'Ö' || c == 'Ü' || c == 'ß'

/-- Zeichenklasse `\s` von Python `re`. -/
def istLeerraum (c : Char) : Bool :=
  c == ' ' || c == '\t' || c == '\n' || c == '\r' || c == '\x0b' || c == '\x0c'

/-- Zeichenklassen, die in `DOKUMENT_MUSTER` vorkommen. -/
inductive Zk where
  | wortz
  | leerz
  | beliebig
deriving DecidableEq, Repr

/-- Passt ein Zeichen auf eine Klasse (`.` trifft alles außer `\n`). -/
def passtKlasse : Zk → Char → Bool
  | .wortz, c => istWortzeichen c
  | .leerz, c => istLeerraum c
  | .beliebig, c => c != '\n'

/-- Syntax der regulären Ausdrücke aus `DOKUMENT_MUSTER`:
Literale (unter `re.IGNORECASE`), Klassen, Verkettung, Alternative
(erst links, dann rechts) und Stern. -/
inductive Rx where
  | leer
  | eps
  | zeichen (c : Char)
  | klasse (k : Zk)
  | folge (a b : Rx)
  | oder (a b : Rx)
  | stern (a : Rx)
deriving DecidableEq, Repr

/-- Akzeptiert der Ausdruck das leere Wort? -/
def istNullbar : Rx → Bool
  | .leer => false
  | .eps => true
  | .zeichen _ => false
  | .klasse _ => false
  | .folge a b => istNullbar a && istNullbar b
  | .oder a b => istNullbar a || istNullbar b
  | .stern _ => true

/-- Brzozowski-Ableitung nach einem Eingabezeichen; Literale werden
beidseitig über `caseFold` verglichen (`re.IGNORECASE`). -/
def ableitung : Rx → Char → Rx
  | .leer, _ => .leer
  | .eps, _ => .leer
  | .zeichen p, c => if caseFold c == caseFold p then .eps else .leer
  | .klasse k, c => if passtKlasse k c then .eps else .leer
  | .folge a b, c =>
      if istNullbar a then .oder (.folge (ableitung a c) b) (ableitung b c)
      else .folge (ableitung a c) b
  | .oder a b, c => .oder (ableitung a c) (ableitung b c)
  | .stern a, c => .folge (ableitung a c) (.stern a)

/-- Passt ein Präfix der Zeichenliste auf den Ausdruck? -/
def passtVorne (r : Rx) : List Char → Bool
  | [] => istNullbar r
  | c :: cs => istNullbar r || passtVorne (ableitung r c) cs

/-- `re.search`: der Ausdruck passt irgendwo in der Zeichenliste
(unverankert, ab irgendeiner Startposition). -/
def suche (r : Rx) : List Char → Bool
  | [] => istNullbar r
  | c :: cs => passtVorne r (c :: cs) || suche r cs

/-- Literalfolge als Ausdruck. -/
def zf (s : String) : Rx :=
  s.data.foldr (fun c r => .folge (.zeichen c) r) .eps

/-- `+`: mindestens eine Wiederholung. -/
def wdh1 (a : Rx) : Rx := .folge a (.stern a)

/-- `.*`. -/
def irgendwas : Rx := .stern (.klasse .beliebig)

/-- `\s*`. -/
def leerraum0 : Rx := .stern (.klasse .leerz)

/-- Eine Klassifizierungsregel: (Muster, Dokumenttyp, Kategorie). -/
abbrev Regel := Rx × String × String

/-- Die geordnete Mustertabelle `RAMicroAktenImporter.DOKUMENT_MUSTER`. -/
def DOKUMENT_MUSTER : List Regel := [
  -- Gerichtliche Dokumente
  (.folge (zf "Arbeitsgericht") (.folge (wdh1 (.klasse .leerz))
     (.folge (wdh1 (.klasse .wortz)) (.folge irgendwas
       (.oder (zf "Az") (zf "Aktenzeichen"))))), "Gerichtsdokument", "Gericht"),
  (zf "Landesarbeitsgericht", "LAG-Dokument", "Gericht"),
  (zf "Bundesarbeitsgericht", "BAG-Dokument", "Gericht"),
  (.folge (.oder (zf "Güte") (zf "Kammer")) (.folge (zf "termin")
     (.folge irgendwas (.oder (zf "anberaumt") (zf "festgesetzt")))),
     "Ladung", "Gericht"),
  (zf "Mahnbescheid", "Mahnbescheid", "Gericht"),
  (zf "Vollstreckungsbescheid", "Vollstreckungsbescheid", "Gericht"),
  (.folge (zf "Urteil") (.folge leerraum0
     (.oder (zf "im Namen") (zf "des Volkes"))), "Urteil", "Gericht"),
  (zf "Beschluss", "Beschluss", "Gericht"),
  (zf "Versäumnisurteil", "Versäumnisurteil", "Gericht"),
  -- Schriftsätze
  (zf "Kündigungsschutzklage", "Kündigungsschutzklage", "Schriftsatz"),
  (zf "Klageerwiderung", "Klageerwiderung", "Schriftsatz"),
  (.folge (zf "Schriftsatz") (.folge irgendwas
     (.oder (zf "Kläger") (zf "Beklagte"))), "Schriftsatz", "Schriftsatz"),
  (.folge (zf "Antrag auf") (.folge irgendwas
     (.oder (zf "PKH") (zf "Prozesskostenhilfe"))), "PKH-Antrag", "Schriftsatz"),
  (zf "Berufungsbegründung", "Berufungsbegründung", "Schriftsatz"),
  -- Verträge
  (.oder (zf "Arbeitsvertrag") (zf "Anstellungsvertrag"), "Arbeitsvertrag", "Vertrag"),
  (zf "Aufhebungsvertrag", "Aufhebungsvertrag", "Vertrag"),
  (zf "Änderungsvertrag", "Änderungsvertrag", "Vertrag"),
  (zf "Abwicklungsvertrag", "Abwicklungsvertrag", "Vertrag"),
  (.folge (zf "Vergleich") (.folge irgendwas
     (.oder (zf "geschlossen") (zf "vereinbart"))), "Vergleich", "Vertrag"),
  -- Arbeitgeber-Dokumente
  (.folge (zf "Kündigung") (.folge irgendwas
     (.oder (zf "hiermit") (.oder (zf "fristgerecht") (zf "fristlos")))),
     "Kündigung", "Arbeitgeber"),
  (zf "Abmahnung", "Abmahnung", "Arbeitgeber"),
  (.oder (zf "Zeugnis") (zf "Arbeitszeugnis"), "Arbeitszeugnis", "Arbeitgeber"),
  (.oder (zf "Betriebsratsanhörung") (.folge (.zeichen '§')
     (.folge leerraum0 (.folge (zf "102") (.folge leerraum0 (zf "BetrVG"))))),
     "BR-Anhörung", "Arbeitgeber"),
  (.oder (zf "Gehaltsabrechnung") (zf "Lohnabrechnung"), "Gehaltsabrechnung", "Arbeitgeber"),
  -- Korrespondenz
  (.folge (.oder (zf "Von") (zf "From")) (.folge (.zeichen ':')
     (.folge irgendwas (.folge (.zeichen '@') (.folge irgendwas
       (.folge (.zeichen '\n') (.folge irgendwas
         (.folge (.oder (zf "An") (zf "To")) (.zeichen ':')))))))),
     "E-Mail", "Korrespondenz"),
  (.oder (.folge (zf "Sehr geehrte") (.folge irgendwas (zf "Herr"))) (zf "Frau"),
     "Schreiben", "Korrespondenz"),
  (zf "Mit freundlichen Grüßen", "Schreiben", "Korrespondenz"),
  (.oder (zf "Rechtsschutzversicherung") (zf "RSV"), "RSV-Korrespondenz", "Korrespondenz"),
  (zf "Deckungszusage", "Deckungszusage", "Korrespondenz"),
  -- Sonstiges
  (.oder (zf "Rechnung") (zf "Honorar"), "Rechnung", "Finanzen"),
  (zf "Vollmacht", "Vollmacht", "Sonstiges"),
  (zf "Personalakte", "Personalakte", "Sonstiges")]

/-- Erste Regel der Liste, deren Muster im Text vorkommt. -/
def sucheErsteRegel : List Regel → String → Option (String × String)
  | [], _ => none
  | (muster, typ, kategorie) :: rest, text =>
      if suche muster text.data then some (typ, kategorie)
      else sucheErsteRegel rest text

/-- `RAMicroAktenImporter._klassifiziere_seite`: erste passende Regel
der Tabelle oder keine. -/
def klassifiziereSeite (text : String) : Option (String × String) :=
  sucheErsteRegel DOKUMENT_MUSTER text

/-- Anzahl der Tabellenmuster, die im Text vorkommen
(Zählschleife in `_berechne_konfidenz`). -/
def anzahlTreffer (text : String) : ℕ :=
  DOKUMENT_MUSTER.countP (fun r => suche r.1 text.data)

/-- `RAMicroAktenImporter._berechne_konfidenz` (Werte in ℚ):
Basis 0.5, plus `min(Treffer*0.1, 0.3)`, plus Längenboni, gedeckelt
bei 1.0.  Das Argument `doc_type` der Python-Methode wird im Rumpf
nicht verwendet und ist daher weggelassen. -/
def berechneKonfidenz (text : String) : ℚ :=
  let score : ℚ := 1/2 + min ((anzahlTreffer text : ℚ) * (1/10)) (3/10)
  let score := if text.length > 500 then score + 1/10 else score
  let score := if text.length > 1000 then score + 1/10 else score
  min score 1

/-- Passt die Literalfolge am Listenanfang, liefert den Rest. -/
def passtLiteral : List Char → List Char → Option (List Char)
  | [], rest => some rest
  | p :: ps, c :: cs => if p == c then passtLiteral ps cs else none
  | _ :: _, [] => none

/-- Erste Literalalternative (in Reihenfolge), die am Anfang passt;
liefert (verbrauchte Zeichen, Rest). -/
def erstesLiteral : List String → List Char → Option (List Char × List Char)
  | [], _ => none
  | s :: ss, cs =>
      match passtLiteral s.data cs with
      | some rest => some (s.data, rest)
      | none => erstesLiteral ss cs

/-- Gieriges `\s*`: (verbrauchter Leerraum, Rest). -/
def nimmLeerraum : List Char → List Char × List Char
  | [] => ([], [])
  | c :: cs =>
      if istLeerraum c then
        let a := nimmLeerraum cs
        (c :: a.1, a.2)
      else ([], c :: cs)

/-- Python `str.strip()` auf Zeichenlisten: Leerraum beidseitig
entfernen. -/
def pyStrip (cs : List Char) : List Char :=
  ((cs.dropWhile istLeerraum).reverse.dropWhile istLeerraum).reverse

/-- Ziffernwert eines Zeichens. -/
def zifferWert (c : Char) : ℕ := c.toNat - '0'.toNat

/-- Dezimalzahl aus einer nichtleeren Ziffernliste, sonst `none`. -/
def listeZuNat (ds : List Char) : Option ℕ :=
  if ds ≠ [] ∧ ds.all (fun c => c.isDigit)
  then some (ds.foldl (fun n c => 10 * n + zifferWert c) 0) else none

/-- Datumsmuster 1 `(\d{2}\.\d{2}\.\d{4})` an fester Position. -/
def datumMuster1An (cs : List Char) : Option (List Char) :=
  match cs with
  | d1 :: d2 :: p1 :: m1 :: m2 :: p2 :: j1 :: j2 :: j3 :: j4 :: _ =>
      if d1.isDigit && d2.isDigit && p1 == '.' && m1.isDigit && m2.isDigit
         && p2 == '.' && j1.isDigit && j2.isDigit && j3.isDigit && j4.isDigit
      then some [d1, d2, p1, m1, m2, p2, j1, j2, j3, j4] else none
  | _ => none

/-- `re.search` für Datumsmuster 1: Position für Position. -/
def sucheDatum1 : List Char → Option (List Char)
  | [] => none
  | c :: cs =>
      match datumMuster1An (c :: cs) with
      | some g => some g
      | none => sucheDatum1 cs

/-- Die Monatsnamen aus Datumsmuster 2, in Alternativen-Reihenfolge. -/
def monate : List String :=
  ["Januar", "Februar", "März", "April", "Mai", "Juni", "Juli",
   "August", "September", "Oktober", "November", "Dezember"]

/-- Rest von Datumsmuster 2 nach den führenden Ziffern:
`\.\s*(?:Monat)\s*\d{4}` (die gierigen `\s*` kollidieren nicht mit den
Folgezeichen, Monatsnamen und Ziffern sind kein Leerraum). -/
def datumNachZiffern (cs : List Char) : Option (List Char) :=
  match cs with
  | '.' :: cs1 =>
      let w1 := nimmLeerraum cs1
      match erstesLiteral monate w1.2 with
      | some (mon, r2) =>
          let w2 := nimmLeerraum r2
          match w2.2 with
          | a :: b :: c :: d :: _ =>
              if a.isDigit && b.isDigit && c.isDigit && d.isDigit
              then some ('.' :: (w1.1 ++ mon ++ w2.1 ++ [a, b, c, d])) else none
          | _ => none
      | none => none
  | _ => none

/-- Datumsmuster 2 an fester Position: `\d{1,2}` gierig (erst zwei
Ziffern, bei Fehlschlag eine), dann der Rest. -/
def datumMuster2An (cs : List Char) : Option (List Char) :=
  match cs with
  | a :: b :: rest =>
      if a.isDigit && b.isDigit then
        match datumNachZiffern rest with
        | some g => some (a :: b :: g)
        | none =>
            match datumNachZiffern (b :: rest) with
            | some g => some (a :: g)
            | none => none
      else if a.isDigit then
        match datumNachZiffern (b :: rest) with
        | some g => some (a :: g)
        | none => none
      else none
  | _ => none

/-- `re.search` für Datumsmuster 2. -/
def sucheDatum2 : List Char → Option (List Char)
  | [] => none
  | c :: cs =>
      match datumMuster2An (c :: cs) with
      | some g => some g
      | none => sucheDatum2 cs

/-- `RAMicroAktenImporter._extrahiere_datum`: erst Muster 1 im ganzen
Text, dann Muster 2; sonst `None`. -/
def extrahiereDatum (text : String) : Option String :=
  match sucheDatum1 text.data with
  | some g => some (String.mk g)
  | none =>
      match sucheDatum2 text.data with
      | some g => some (String.mk g)
      | none => none

/-- Die Betreff-Schlüsselwörter `(?:Betreff:|AW:|RE:)`. -/
def betreffSchluessel : List String := ["Betreff:", "AW:", "RE:"]

/-- Gruppe `\s*([^\n]+)`: gieriges `\s*` mit Rückverfolgung, dann
mindestens ein Zeichen außer Zeilenumbruch, gierig bis zum
Zeilenende. -/
def zeilenGruppe (cs : List Char) : Option (List Char) :=
  let lauf := nimmLeerraum cs
  match lauf.2 with
  | c :: rest => some ((c :: rest).takeWhile (fun x => x != '\n'))
  | [] =>
      match lauf.1.reverse.dropWhile (fun x => x == '\n') with
      | c :: _ => some [c]
      | [] => none

/-- `re.search` für `(?:Betreff:|AW:|RE:)\s*([^\n]+)`: liefert
Gruppe 1. -/
def sucheBetreff : List Char → Option (List Char)
  | [] => none
  | c :: cs =>
      match erstesLiteral betreffSchluessel (c :: cs) with
      | some (_, rest) =>
          match zeilenGruppe rest with
          | some g => some g
          | none => sucheBetreff cs
      | none => sucheBetreff cs

/-- `RAMicroAktenImporter._extrahiere_titel`: Betreffzeile, sonst
`"<Typ> vom <Datum>"`, sonst der Dokumenttyp. -/
def extrahiereTitel (text typ : String) : String :=
  match sucheBetreff text.data with
  | some g => String.mk ((pyStrip g).take 100)
  | none =>
      match extrahiereDatum text with
      | some datum => typ ++ " vom " ++ datum
      | none => typ

/-- Datenklasse `Dokument` (Python-Feldreihenfolge; `datum` wird in
`_erkenne_dokumente` mit dem Ergebnis von `_extrahiere_datum`, also
ggf. `None`, belegt). -/
structure Dokument where
  id : ℕ
  titel : String
  kategorie : String
  seite_von : ℕ
  seite_bis : ℕ
  datum : Option String
  inhalt_vorschau : String
  dateiname : String
  ocr_text : String
  konfidenz : ℚ
deriving DecidableEq, Repr

/-- Schleifenzustand von `_erkenne_dokumente`:
(`dokumente`, `current_doc`, `doc_id`). -/
structure SegZustand where
  fertig : List Dokument
  offen : Option Dokument
  zaehler : ℕ
deriving DecidableEq, Repr

/-- Alle bisher angelegten Dokumente (abgeschlossene plus offenes). -/
def alleDokumente (st : SegZustand) : List Dokument :=
  st.fertig ++ st.offen.toList

/-- Der in der Schleife verwendete Seitentext: bei wenig Rohtext und
verfügbarem OCR der OCR-Text der Seite, sonst der Rohtext. -/
def seitenText (oa : Bool) (ocr : ℕ → String) (roh : String) (nr : ℕ) : String :=
  if (pyStrip roh.data).length < 50 && oa then ocr nr else roh

/-- Das in `_erkenne_dokumente` neu angelegte `Dokument`
(`inhalt_vorschau = text[:500] if text else ""` stimmt für leere wie
nichtleere Texte mit `text.take 500` überein). -/
def neuesDokument (nr seitenNr : ℕ) (text typ kategorie : String) : Dokument :=
  { id := nr, titel := extrahiereTitel text typ, kategorie := kategorie,
    seite_von := seitenNr, seite_bis := seitenNr,
    datum := extrahiereDatum text, inhalt_vorschau := String.mk (text.data.take 500),
    dateiname := "", ocr_text := "", konfidenz := berechneKonfidenz text }

/-- Ein Schleifendurchlauf von `_erkenne_dokumente` für die Seite
`seitenNr` mit Rohtext `roh`. -/
def verarbeiteSeite (oa : Bool) (ocr : ℕ → String) (st : SegZustand)
    (seitenNr : ℕ) (roh : String) : SegZustand :=
  let text := seitenText oa ocr roh seitenNr
  match klassifiziereSeite text with
  | some (typ, kategorie) =>
      let geschlossen :=
        match st.offen with
        | some cd =>
            let cd := { cd with seite_bis := seitenNr - 1 }
            if cd.seite_von ≤ cd.seite_bis then st.fertig ++ [cd] else st.fertig
        | none => st.fertig
      { fertig := geschlossen,
        offen := some (neuesDokument (st.zaehler + 1) seitenNr text typ kategorie),
        zaehler := st.zaehler + 1 }
  | none =>
      match st.offen with
      | some cd => { st with offen := some { cd with seite_bis := seitenNr } }
      | none => st

/-- Die Seitenschleife ab Seitennummer `nr`. -/
def segLauf (oa : Bool) (ocr : ℕ → String) : ℕ → SegZustand → List String → SegZustand
  | _, st, [] => st
  | nr, st, roh :: reste => segLauf oa ocr (nr + 1) (verarbeiteSeite oa ocr st nr roh) reste

/-- `RAMicroAktenImporter._erkenne_dokumente` über den Rohtexten der
Seiten: Schleife, dann Abschluss des offenen Dokuments mit
`seite_bis = total_pages`. -/
def erkenneDokumente (oa : Bool) (ocr : ℕ → String) (texte : List String) : List Dokument :=
  let endz := segLauf oa ocr 1 ⟨[], none, 0⟩ texte
  match endz.offen with
  | some cd => endz.fertig ++ [{ cd with seite_bis := texte.length }]
  | none => endz.fertig

/-- Die Seitennummern (ab `nr`), deren Text klassifiziert wird —
die Dokumentgrenzen. -/
def grenzSeitenAb (oa : Bool) (ocr : ℕ → String) : ℕ → List String → List ℕ
  | _, [] => []
  | nr, roh :: reste =>
      if (klassifiziereSeite (seitenText oa ocr roh nr)).isSome
      then nr :: grenzSeitenAb oa ocr (nr + 1) reste
      else grenzSeitenAb oa ocr (nr + 1) reste

/-- Anzahl der Grenzseiten ab `nr`. -/
def anzahlGrenzen (oa : Bool) (ocr : ℕ → String) (nr : ℕ) (reste : List String) : ℕ :=
  (grenzSeitenAb oa ocr nr reste).length

/-- Passt die Literalfolge am Listenanfang unter `re.IGNORECASE`. -/
def passtLiteralCI : List Char → List Char → Option (List Char)
  | [], rest => some rest
  | p :: ps, c :: cs =>
      if caseFold p == caseFold c then passtLiteralCI ps cs else none
  | _ :: _, [] => none

/-- Erste Literalalternative unter `re.IGNORECASE`. -/
def erstesLiteralCI : List String → List Char → Option (List Char × List Char)
  | [], _ => none
  | s :: ss, cs =>
      match passtLiteralCI s.data cs with
      | some rest => some (s.data, rest)
      | none => erstesLiteralCI ss cs

/-- Die Schlüsselwörter `(?:Gegenstandswert|Streitwert)`. -/
def wertSchluessel : List String := ["Gegenstandswert", "Streitwert"]

/-- `(?:[.,]\d{3})*` gierig: (verbrauchte Zeichen, Rest).  Da der
nachfolgende Musterrest stets passt, findet keine Rückverfolgung
statt — rein gieriges Vorgehen entspricht `re`. -/
def tausenderGruppen : List Char → List Char × List Char
  | s :: d1 :: d2 :: d3 :: rest =>
      if (s == '.' || s == ',') && d1.isDigit && d2.isDigit && d3.isDigit then
        let a := tausenderGruppen rest
        (s :: d1 :: d2 :: d3 :: a.1, a.2)
      else ([], s :: d1 :: d2 :: d3 :: rest)
  | cs => ([], cs)

/-- `(?:[.,]\d{2})?` gierig: die verbrauchten Zeichen. -/
def dezimalGruppe : List Char → List Char
  | s :: d1 :: d2 :: _ =>
      if (s == '.' || s == ',') && d1.isDigit && d2.isDigit then [s, d1, d2] else []
  | _ => []

/-- Höchstens `n` Ziffern, gierig: (verbrauchte Zeichen, Rest). -/
def nimmZiffern : ℕ → List Char → List Char × List Char
  | 0, cs => ([], cs)
  | _ + 1, [] => ([], [])
  | n + 1, c :: cs =>
      if c.isDigit then
        let a := nimmZiffern n cs
        (c :: a.1, a.2)
      else ([], c :: cs)

/-- Gruppe 1 `(\d{1,3}(?:[.,]\d{3})*(?:[.,]\d{2})?)` an fester
Position (der Rest des Musters `\s*(?:€|EUR)?` ist stets erfüllbar
und beeinflusst die Gruppe nicht). -/
def wertGruppe (cs : List Char) : Option (List Char) :=
  match cs with
  | c :: _ =>
      if c.isDigit then
        let z := nimmZiffern 3 cs
        let t := tausenderGruppen z.2
        some (z.1 ++ t.1 ++ dezimalGruppe t.2)
      else none
  | [] => none

/-- Das Wertmuster an fester Position: Schlüsselwort, gieriges
`[\s:]*` (Rückverfolgung in den Leerraum kann keine Ziffer liefern),
dann die Zahlgruppe. -/
def wertAb (cs : List Char) : Option (List Char) :=
  match erstesLiteralCI wertSchluessel cs with
  | some (_, rest) => wertGruppe (rest.dropWhile (fun c => istLeerraum c || c == ':'))
  | none => none

/-- `re.search` für das Wertmuster: Gruppe 1 des am weitesten links
beginnenden Treffers. -/
def sucheWert : List Char → Option (List Char)
  | [] => none
  | c :: cs =>
      match wertAb (c :: cs) with
      | some g => some g
      | none => sucheWert cs

/-- `wert_str = gruppe.replace(".", "").replace(",", ".")`. -/
def konvertiereWert (g : List Char) : List Char :=
  (g.filter (fun c => c != '.')).map (fun c => if c == ',' then '.' else c)

/-- Python `float()` auf den hier möglichen Eingaben (Ziffern mit
höchstens einem Punkt); mehrere Punkte lösen `ValueError` aus —
modelliert als `none`. -/
def parseGleitkomma (s : List Char) : Option ℚ :=
  match s.splitOn '.' with
  | [g] => (listeZuNat g).map (fun n => (n : ℚ))
  | [g, b] =>
      match listeZuNat g, listeZuNat b with
      | some n, some m => some ((n : ℚ) + (m : ℚ) / (10 : ℚ) ^ b.length)
      | _, _ => none
  | _ => none

/-- Die Gegenstandswert-Extraktion aus
`RAMicroAktenImporter._extrahiere_aktenvorblatt`: Regex-Treffer,
Ersetzung der Trennzeichen, `float()` mit `try/except: pass` —
ohne Treffer oder bei `ValueError` bleibt der Wert `0.0`. -/
def extrahiereGegenstandswert (text : String) : ℚ :=
  match sucheWert text.data with
  | none => 0
  | some g =>
      match parseGleitkomma (konvertiereWert g) with
      | some v => v
      | none => 0

/-- Datenklasse `Partei`. -/
structure Partei where
  rolle : String
  name : String
  anschrift : String
  plz_ort : String
  telefon1 : String
  telefon2 : String
  fax : String
  email : String
  ansprechpartner : String
deriving DecidableEq, Repr

/-- Datenklasse `Aktenvorblatt` (Gleitkommawert als ℚ). -/
structure Aktenvorblatt where
  rubrum : String
  aktennummer : String
  wegen : String
  gegenstandswert : ℚ
  angelegt_am : String
  instanz_1_gericht : String
  instanz_1_az : String
  instanz_2_gericht : String
  instanz_2_az : String
  rechtsgebiet : String
  parteien : List Partei
deriving DecidableEq, Repr

/-- `Aktenvorblatt()` mit den Feld-Vorgabewerten der Datenklasse. -/
def leeresVorblatt : Aktenvorblatt :=
  { rubrum := "", aktennummer := "", wegen := "", gegenstandswert := 0,
    angelegt_am := "", instanz_1_gericht := "", instanz_1_az := "",
    instanz_2_gericht := "", instanz_2_az := "", rechtsgebiet := "Arbeitsrecht",
    parteien := [] }

/-- Datenklasse `ImportErgebnis` (Score als ℤ, Python `int`). -/
structure ImportErgebnis where
  erfolg : Bool
  aktenvorblatt : Option Aktenvorblatt
  dokumente : List Dokument
  qualitaet : String
  qualitaet_score : ℤ
  fehler : List String
  warnungen : List String
deriving DecidableEq, Repr

/-- Python `int()` auf ℚ: Abschneiden zur Null hin
(`Int.tdiv` schneidet ebenfalls zur Null hin ab). -/
def pyInt (q : ℚ) : ℤ := Int.tdiv q.num q.den

/-- Die Vorblatt-Zuschläge von `_bewerte_qualitaet`
(`if self.aktenvorblatt:` ist für Datenklassen genau der
`None`-Test). -/
def vorblattPunkte : Option Aktenvorblatt → ℤ
  | some a =>
      (if a.rubrum ≠ "" then 15 else 0) + (if a.aktennummer ≠ "" then 15 else 0)
        + (if 0 < a.gegenstandswert then 10 else 0)
        + (if 2 ≤ a.parteien.length then 20 else 0)
  | none => 0

/-- Die Dokument-Zuschläge von `_bewerte_qualitaet`
(`if self.dokumente:` ist der Test auf nichtleere Liste). -/
def dokumentPunkte (docs : List Dokument) : ℤ :=
  if docs.isEmpty then 0
  else
    min ((docs.length : ℤ) * 5) 30
      + pyInt ((docs.map Dokument.konfidenz).sum / (docs.length : ℚ) * 10)

/-- `RAMicroAktenImporter._bewerte_qualitaet` über dem Zustand
(`aktenvorblatt`, `dokumente`): Summe der Zuschläge, gedeckelt
bei 100. -/
def bewerteQualitaet (av : Option Aktenvorblatt) (docs : List Dokument) : ℤ :=
  min (vorblattPunkte av + dokumentPunkte docs) 100

/-- `RAMicroAktenImporter._qualitaet_text`. -/
def qualitaetText (score : ℤ) : String :=
  if score ≥ 80 then "sehr_gut"
  else if score ≥ 60 then "gut"
  else if score ≥ 40 then "akzeptabel"
  else "mangelhaft"

/-- Eine Seite der geöffneten PDF: Textextraktion liefert Text
(`extract_text() or ""` macht aus `None` den leeren Text) oder löst
eine Ausnahme aus. -/
inductive Seite where
  | ok (text : String)
  | defekt (meldung : String)
deriving DecidableEq, Repr

/-- Eine Eingabedatei: `pdfplumber.open` löst eine Ausnahme aus
(Datei unlesbar/defekt) oder liefert die Seitenliste. -/
inductive PdfQuelle where
  | unlesbar (meldung : String)
  | seiten (liste : List Seite)
deriving DecidableEq, Repr

/-- Seitenzahl (`len(pdf.pages)`). -/
def seitenzahl : PdfQuelle → ℕ
  | .unlesbar _ => 0
  | .seiten liste => liste.length

/-- `_extrahiere_aktenvorblatt`: bei leerer Seitenliste das leere
Vorblatt; sonst Extraktion des Texts von Seite 1 (kann fehlschlagen)
und Feldanalyse.  Die reine Feldanalyse (Seite-1-Text → Vorblatt,
total, ausnahmefrei) ist als Parameter `avEx` abstrahiert; ihr für
die Anspruchsprüfung relevanter Teil, die Gegenstandswert-Extraktion,
ist oben konkret als `extrahiereGegenstandswert` modelliert. -/
def extrahiereVorblatt (avEx : String → Aktenvorblatt) :
    List Seite → Except String Aktenvorblatt
  | [] => .ok leeresVorblatt
  | s :: _ =>
      match s with
      | .ok t => .ok (avEx t)
      | .defekt m => .error m

/-- Die Seitentexte der Schleife in `_erkenne_dokumente`; die erste
fehlschlagende Extraktion bricht mit ihrer Ausnahme ab. -/
def alleTexte : List Seite → Except String (List String)
  | [] => .ok []
  | s :: rest =>
      match s with
      | .defekt m => .error m
      | .ok t =>
          match alleTexte rest with
          | .error m => .error m
          | .ok ts => .ok (t :: ts)

/-- Das `ImportErgebnis` des `except`-Zweigs von `analysiere_pdf`:
Vorgabewerte der Datenklasse, `erfolg = False`, genau eine
Fehlermeldung. -/
def fehlerErgebnis (m : String) : ImportErgebnis :=
  { erfolg := false, aktenvorblatt := none, dokumente := [],
    qualitaet := "gut", qualitaet_score := 0,
    fehler := ["Fehler bei PDF-Analyse: " ++ m], warnungen := [] }

/-- `RAMicroAktenImporter.analysiere_pdf`: Öffnen, Vorblatt,
Dokumenterkennung, Qualitätsbewertung; jede Ausnahme der Extraktion
wird gefangen und in `erfolg=False` mit einer Fehlermeldung
umgewandelt.  Schlägt die Seitenschleife fehl, ist das Vorblatt
bereits zugewiesen, die Dokumentliste aber noch leer. -/
def analysierePdf (oa : Bool) (ocr : ℕ → String) (avEx : String → Aktenvorblatt)
    (q : PdfQuelle) : ImportErgebnis :=
  match q with
  | .unlesbar m => fehlerErgebnis m
  | .seiten liste =>
      match extrahiereVorblatt avEx liste with
      | .error m => fehlerErgebnis m
      | .ok av =>
          match alleTexte liste with
          | .error m => { fehlerErgebnis m with aktenvorblatt := some av }
          | .ok texte =>
              let docs := erkenneDokumente oa ocr texte
              let score := bewerteQualitaet (some av) docs
              { erfolg := true, aktenvorblatt := some av, dokumente := docs,
                qualitaet := qualitaetText score, qualitaet_score := score,
                fehler := [], warnungen := [] }

/-- `BatchImporter.importiere_batch`: jede Datei wird mit einem
frischen Importer unabhängig analysiert; `analysiere_pdf` fängt alle
Extraktionsausnahmen selbst, der äußere `try` der Schleife ändert am
Ergebnis je Datei nichts. -/
def importiereBatch (oa : Bool) (ocr : ℕ → String) (avEx : String → Aktenvorblatt)
    (dateien : List PdfQuelle) : List ImportErgebnis :=
  dateien.map (analysierePdf oa ocr avEx)

/-- Schlägt die Textextraktion der Quelle irgendwo fehl
(unlesbare Datei oder defekte Seite)? -/
def extraktionSchlaegtFehl : PdfQuelle → Bool
  | .unlesbar _ => true
  | .seiten liste =>
      liste.any (fun s => match s with | .defekt _ => true | .ok _ => false)

/-- Die Rohtexte einer fehlerfreien Seitenliste. -/
def seitenInhalte (liste : List Seite) : List String :=
  liste.map (fun s => match s with | .ok t => t | .defekt _ => "")

/-- Deckt das Dokument die Seite `p` ab (`seite_von ≤ p ≤ seite_bis`)? -/
def deckt (d : Dokument) (p : ℕ) : Bool :=
  decide (d.seite_von ≤ p) && decide (p ≤ d.seite_bis)

/-- Die erste klassifizierte Seite einer Quelle (1-basiert), falls es
eine gibt. -/
def ersteGrenzeVon (oa : Bool) (ocr : ℕ → String) : PdfQuelle → Option ℕ
  | .unlesbar _ => none
  | .seiten liste => (grenzSeitenAb oa ocr 1 (seitenInhalte liste)).head?

/-- Die Konfidenzformel, wie der Anspruch sie liest: 0.1 je
zusätzlichem Muster über das klassifizierende hinaus
(Formalisierung des Anspruchswortlauts, nicht des Quelltexts). -/
def konfidenzLautAnspruch (text : String) : ℚ :=
  let score : ℚ := 1/2 + min (((anzahlTreffer text - 1 : ℕ) : ℚ) * (1/10)) (3/10)
  let score := if text.length > 500 then score + 1/10 else score
  let score := if text.length > 1000 then score + 1/10 else score
  min score 1

/-- Die Konfidenzformel des berichtigten Anspruchs: 0.1 je im Text
gefundenem Tabellenmuster einschließlich des klassifizierenden,
Beitrag gedeckelt bei 0.3, Längenboni, Deckel 1.0 (Formalisierung des
berichtigten Anspruchswortlauts über der Mustertabelle). -/
def konfidenzLautBerichtigung (text : String) : ℚ :=
  min (1/2 + min (((DOKUMENT_MUSTER.filter (fun r => suche r.1 text.data)).length : ℚ) * (1/10)) (3/10)
      + (if 500 < text.length then 1/10 else 0)
      + (if 1000 < text.length then 1/10 else 0)) 1

/-- Die Großbuchstaben, die `caseFold` abbildet. -/
def grossbuchstaben : List Char :=
  ['A', 'B', 'C', 'D', 'E', 'F', 'G', 'H', 'I', 'J', 'K', 'L', 'M',
   'N', 'O', 'P', 'Q', 'R', 'S', 'T', 'U', 'V', 'W', 'X', 'Y', 'Z',
   'Ä', 'Ö', 'Ü']

theorem caseFold_nicht_gross (c : Char) (h : c ∉ grossbuchstaben) : caseFold c = c := by
  unfold caseFold
  split
  all_goals first
    | rfl
    | exact absurd (by decide) h

theorem caseFold_idem (c : Char) : caseFold (caseFold c) = caseFold c := by
  by_cases h : c ∈ grossbuchstaben
  · revert h
    revert c
    decide
  · rw [caseFold_nicht_gross c h]
    exact caseFold_nicht_gross c h

theorem passtKlasse_caseFold (k : Zk) (c : Char) :
    passtKlasse k (caseFold c) = passtKlasse k c := by
  by_cases h : c ∈ grossbuchstaben
  · have hreich : ∀ x ∈ grossbuchstaben,
        istWortzeichen (caseFold x) = istWortzeichen x
          ∧ istLeerraum (caseFold x) = istLeerraum x
          ∧ (caseFold x != '\n') = (x != '\n') := by decide
    obtain ⟨h1, h2, h3⟩ := hreich c h
    cases k <;> simp [passtKlasse, h1, h2, h3]
  · rw [caseFold_nicht_gross c h]

theorem ableitung_caseFold (r : Rx) (c : Char) :
    ableitung r (caseFold c) = ableitung r c := by
  induction r with
  | leer => rfl
  | eps => rfl
  | zeichen p => simp [ableitung, caseFold_idem]
  | klasse k => simp [ableitung, passtKlasse_caseFold]
  | folge a b iha ihb => simp [ableitung, iha, ihb]
  | oder a b iha ihb => simp [ableitung, iha, ihb]
  | stern a ih => simp [ableitung, ih]

theorem passtVorne_caseFold (cs : List Char) : ∀ r : Rx,
    passtVorne r (cs.map caseFold) = passtVorne r cs := by
  induction cs with
  | nil => intro r; rfl
  | cons c cs ih =>
      intro r
      simp only [List.map_cons, passtVorne, ableitung_caseFold, ih]

/-- Die Suche ist unempfindlich gegen die Schreibung des Texts in
Groß- oder Kleinbuchstaben (`re.IGNORECASE`). -/
theorem suche_caseFold (r : Rx) (cs : List Char) :
    suche r (cs.map caseFold) = suche r cs := by
  induction cs with
  | nil => rfl
  | cons c cs ih =>
      simp only [List.map_cons, suche, ih]
      have : passtVorne r (caseFold c :: cs.map caseFold)
          = passtVorne r (c :: cs) := by
        have := passtVorne_caseFold (c :: cs) r
        simpa using this
      rw [this]

/-- Die Suche ist unverankert: sie findet das Muster genau dann, wenn
es ab irgendeiner Position der Zeichenliste passt. -/
theorem suche_iff_position (r : Rx) (cs : List Char) :
    suche r cs = true ↔ ∃ i, passtVorne r (cs.drop i) = true := by
  induction cs with
  | nil =>
      simp only [suche, List.drop_nil]
      constructor
      · intro h; exact ⟨0, h⟩
      · rintro ⟨i, h⟩; exact h
  | cons c cs ih =>
      simp only [suche, Bool.or_eq_true, ih]
      constructor
      · rintro (h | ⟨i, h⟩)
        · exact ⟨0, h⟩
        · exact ⟨i + 1, h⟩
      · rintro ⟨i, h⟩
        cases i with
        | zero => exact Or.inl h
        | succ j => exact Or.inr ⟨j, h⟩

theorem sucheErsteRegel_vorne (text : String) (vorher : List Regel) (r : Regel)
    (nachher : List Regel) (hr : suche r.1 text.data = true)
    (hv : ∀ q ∈ vorher, suche q.1 text.data = false) :
    sucheErsteRegel (vorher ++ r :: nachher) text = some (r.2.1, r.2.2) := by
  induction vorher with
  | nil =>
      obtain ⟨m, ty, kat⟩ := r
      simp only [Prod.fst] at hr
      simp [sucheErsteRegel, hr]
  | cons q qs ih =>
      obtain ⟨qm, qt, qk⟩ := q
      have hq : suche qm text.data = false := by
        simpa using hv ⟨qm, qt, qk⟩ (by simp)
      simp only [List.cons_append, sucheErsteRegel, hq, Bool.false_eq_true, if_false]
      exact ih fun p hp => hv p (by simp [hp])

theorem sucheErsteRegel_keine (text : String) (rs : List Regel)
    (h : ∀ q ∈ rs, suche q.1 text.data = false) :
    sucheErsteRegel rs text = none := by
  induction rs with
  | nil => rfl
  | cons q qs ih =>
      obtain ⟨qm, qt, qk⟩ := q
      have hq : suche qm text.data = false := by
        simpa using h ⟨qm, qt, qk⟩ (by simp)
      simp only [sucheErsteRegel, hq, Bool.false_eq_true, if_false]
      exact ih fun p hp => h p (by simp [hp])

theorem sucheErsteRegel_findet (text : String) (rs : List Regel)
    (h : (sucheErsteRegel rs text).isSome) :
    ∃ q ∈ rs, suche q.1 text.data = true := by
  induction rs with
  | nil => simp [sucheErsteRegel] at h
  | cons q qs ih =>
      obtain ⟨qm, qt, qk⟩ := q
      by_cases hq : suche qm text.data = true
      · exact ⟨⟨qm, qt, qk⟩, by simp, hq⟩
      · simp only [sucheErsteRegel, hq, if_false] at h
        obtain ⟨p, hp, hps⟩ := ih h
        exact ⟨p, by simp [hp], hps⟩

theorem anzahlTreffer_pos (text : String)
    (h : (klassifiziereSeite text).isSome) : 1 ≤ anzahlTreffer text := by
  obtain ⟨q, hq, hqs⟩ := sucheErsteRegel_findet text DOKUMENT_MUSTER h
  have : 0 < DOKUMENT_MUSTER.countP (fun r => suche r.1 text.data) :=
    List.countP_pos_iff.mpr ⟨q, hq, by simp [hqs]⟩
  simpa [anzahlTreffer] using this

theorem berechneKonfidenz_hoechstens_eins (text : String) :
    berechneKonfidenz text ≤ 1 := by
  dsimp only [berechneKonfidenz]
  split_ifs <;> exact min_le_right _ _

theorem berechneKonfidenz_nichtnegativ (text : String) :
    0 ≤ berechneKonfidenz text := by
  dsimp only [berechneKonfidenz]
  have h0 : (0 : ℚ) ≤ min ((anzahlTreffer text : ℚ) * (1/10)) (3/10) := by
    refine le_min (by positivity) (by norm_num)
  refine le_min ?_ (by norm_num)
  split_ifs <;> linarith

theorem klassifiziert_konfidenz (text : String)
    (h : (klassifiziereSeite text).isSome) : 3/5 ≤ berechneKonfidenz text := by
  have hk : 1 ≤ anzahlTreffer text := anzahlTreffer_pos text h
  have hc : (1 : ℚ) ≤ (anzahlTreffer text : ℚ) := by exact_mod_cast hk
  have hmin : (1 : ℚ)/10 ≤ min ((anzahlTreffer text : ℚ) * (1/10)) (3/10) := by
    refine le_min ?_ (by norm_num)
    nlinarith
  dsimp only [berechneKonfidenz]
  refine le_min ?_ (by norm_num)
  split_ifs <;> linarith

theorem alleDokumente_offen (st : SegZustand) (cd : Dokument) (h : st.offen = some cd) :
    alleDokumente st = st.fertig ++ [cd] := by
  simp [alleDokumente, h]

theorem alleDokumente_zu (st : SegZustand) (h : st.offen = none) :
    alleDokumente st = st.fertig := by
  simp [alleDokumente, h]

/-- Schleifeninvariante von `_erkenne_dokumente` nach `m`
verarbeiteten Seiten. -/
structure SegInv (m : ℕ) (st : SegZustand) : Prop where
  geschlossenLeer : st.offen = none → st.fertig = [] ∧ st.zaehler = 0
  offenEnde : ∀ cd, st.offen = some cd → cd.seite_bis = m
  nummern : (alleDokumente st).map Dokument.id = List.range' 1 st.zaehler
  kette : (alleDokumente st).Chain' (fun a b => b.seite_von = a.seite_bis + 1)
  grenzen : ∀ d ∈ alleDokumente st,
    1 ≤ d.seite_von ∧ d.seite_von ≤ d.seite_bis ∧ d.seite_bis ≤ m
  vertrauen : ∀ d ∈ alleDokumente st, 3/5 ≤ d.konfidenz ∧ d.konfidenz ≤ 1

theorem verarbeiteSeite_inv (oa : Bool) (ocr : ℕ → String) (m : ℕ) (st : SegZustand)
    (roh : String) (h : SegInv m st) :
    SegInv (m + 1) (verarbeiteSeite oa ocr st (m + 1) roh) ∧
    (alleDokumente (verarbeiteSeite oa ocr st (m + 1) roh)).map Dokument.seite_von
      = (alleDokumente st).map Dokument.seite_von
        ++ (if (klassifiziereSeite (seitenText oa ocr roh (m + 1))).isSome
            then [m + 1] else []) ∧
    (verarbeiteSeite oa ocr st (m + 1) roh).zaehler
      = st.zaehler
        + (if (klassifiziereSeite (seitenText oa ocr roh (m + 1))).isSome then 1 else 0) := by
  cases hk : klassifiziereSeite (seitenText oa ocr roh (m + 1)) with
  | none =>
      cases ho : st.offen with
      | none =>
          have hst : verarbeiteSeite oa ocr st (m + 1) roh = st := by
            simp [verarbeiteSeite, hk, ho]
          rw [hst]
          refine ⟨⟨h.geschlossenLeer, ?_, h.nummern, h.kette, ?_, h.vertrauen⟩, ?_, ?_⟩
          · intro cd hcd
            rw [ho] at hcd
            cases hcd
          · intro d hd
            obtain ⟨h1, h2, h3⟩ := h.grenzen d hd
            exact ⟨h1, h2, by omega⟩
          · simp [hk]
          · simp [hk]
      | some cd =>
          have hst : verarbeiteSeite oa ocr st (m + 1) roh
              = { st with offen := some { cd with seite_bis := m + 1 } } := by
            simp [verarbeiteSeite, hk, ho]
          have halt : alleDokumente st = st.fertig ++ [cd] := alleDokumente_offen st cd ho
          have hneu : alleDokumente ({ st with offen := some { cd with seite_bis := m + 1 } })
              = st.fertig ++ [{ cd with seite_bis := m + 1 }] := by
            simp [alleDokumente]
          have hbis : cd.seite_bis = m := h.offenEnde cd ho
          have hcdmem : cd ∈ alleDokumente st := by
            rw [halt]; simp
          rw [hst]
          refine ⟨⟨?_, ?_, ?_, ?_, ?_, ?_⟩, ?_, ?_⟩
          · intro hnon
            simp at hnon
          · intro cd' hcd'
            simp only [Option.some.injEq] at hcd'
            rw [← hcd']
          · rw [hneu]
            have := h.nummern
            rw [halt] at this
            simpa using this
          · rw [hneu]
            have := h.kette
            rw [halt] at this
            rw [List.chain'_append] at this ⊢
            refine ⟨this.1, List.chain'_singleton _, ?_⟩
            intro x hx y hy
            simp only [List.head?_cons, Option.mem_def, Option.some.injEq] at hy
            subst hy
            exact this.2.2 x hx cd (by simp)
          · rw [hneu]
            intro d hd
            rcases List.mem_append.mp hd with hd | hd
            · have := h.grenzen d (by rw [halt]; exact List.mem_append_left _ hd)
              exact ⟨this.1, this.2.1, by omega⟩
            · simp only [List.mem_singleton] at hd
              subst hd
              have := h.grenzen cd hcdmem
              simp only
              refine ⟨this.1, ?_, le_refl _⟩
              have : cd.seite_von ≤ m := by
                have h2 := this.2.1
                omega
              omega
          · rw [hneu]
            intro d hd
            rcases List.mem_append.mp hd with hd | hd
            · exact h.vertrauen d (by rw [halt]; exact List.mem_append_left _ hd)
            · simp only [List.mem_singleton] at hd
              subst hd
              exact h.vertrauen cd hcdmem
          · rw [hneu, halt]
            simp [hk]
          · simp [hk]
  | some p =>
      obtain ⟨ty, kat⟩ := p
      cases ho : st.offen with
      | none =>
          obtain ⟨hfert, hz⟩ := h.geschlossenLeer ho
          have hst : verarbeiteSeite oa ocr st (m + 1) roh
              = { fertig := st.fertig,
                  offen := some (neuesDokument (st.zaehler + 1) (m + 1)
                    (seitenText oa ocr roh (m + 1)) ty kat),
                  zaehler := st.zaehler + 1 } := by
            simp [verarbeiteSeite, hk, ho]
          have hneu : alleDokumente
              ({ fertig := st.fertig,
                 offen := some (neuesDokument (st.zaehler + 1) (m + 1)
                   (seitenText oa ocr roh (m + 1)) ty kat),
                 zaehler := st.zaehler + 1 })
              = [neuesDokument (st.zaehler + 1) (m + 1)
                  (seitenText oa ocr roh (m + 1)) ty kat] := by
            simp [alleDokumente, hfert]
          have hks : (klassifiziereSeite (seitenText oa ocr roh (m + 1))).isSome := by
            rw [hk]; rfl
          rw [hst]
          refine ⟨⟨?_, ?_, ?_, ?_, ?_, ?_⟩, ?_, ?_⟩
          · intro hnon
            simp at hnon
          · intro cd' hcd'
            simp only [Option.some.injEq] at hcd'
            rw [← hcd']
            rfl
          · rw [hneu, hz]
            rfl
          · rw [hneu]
            exact List.chain'_singleton _
          · rw [hneu]
            intro d hd
            simp only [List.mem_singleton] at hd
            subst hd
            simp only [neuesDokument]
            omega
          · rw [hneu]
            intro d hd
            simp only [List.mem_singleton] at hd
            subst hd
            exact ⟨klassifiziert_konfidenz _ hks, berechneKonfidenz_hoechstens_eins _⟩
          · rw [hneu, alleDokumente_zu st ho, hfert]
            simp [hk, neuesDokument]
          · simp [hk]
      | some cd =>
          have hbis : cd.seite_bis = m := h.offenEnde cd ho
          have hcdmem : cd ∈ alleDokumente st := by
            rw [alleDokumente_offen st cd ho]; simp
          have hguard : cd.seite_von ≤ m := by
            have := h.grenzen cd hcdmem
            omega
          have heta : ({ cd with seite_bis := m } : Dokument) = cd := by
            rw [← hbis]
          have hst : verarbeiteSeite oa ocr st (m + 1) roh
              = { fertig := st.fertig ++ [cd],
                  offen := some (neuesDokument (st.zaehler + 1) (m + 1)
                    (seitenText oa ocr roh (m + 1)) ty kat),
                  zaehler := st.zaehler + 1 } := by
            simp only [verarbeiteSeite, hk, ho]
            simp only [Nat.add_sub_cancel]
            simp only [heta]
            simp [hguard]
          have halt : alleDokumente st = st.fertig ++ [cd] := alleDokumente_offen st cd ho
          have hneu : alleDokumente
              ({ fertig := st.fertig ++ [cd],
                 offen := some (neuesDokument (st.zaehler + 1) (m + 1)
                   (seitenText oa ocr roh (m + 1)) ty kat),
                 zaehler := st.zaehler + 1 })
              = alleDokumente st
                ++ [neuesDokument (st.zaehler + 1) (m + 1)
                     (seitenText oa ocr roh (m + 1)) ty kat] := by
            rw [halt]
            simp [alleDokumente]
          have hks : (klassifiziereSeite (seitenText oa ocr roh (m + 1))).isSome := by
            rw [hk]; rfl
          rw [hst]
          refine ⟨⟨?_, ?_, ?_, ?_, ?_, ?_⟩, ?_, ?_⟩
          · intro hnon
            simp at hnon
          · intro cd' hcd'
            simp only [Option.some.injEq] at hcd'
            rw [← hcd']
            rfl
          · rw [hneu]
            rw [List.map_append, h.nummern]
            have hr : List.range' 1 (st.zaehler + 1)
                = List.range' 1 st.zaehler ++ [1 + st.zaehler] := by
              simpa using @List.range'_concat 1 1 st.zaehler
            rw [hr]
            simp [neuesDokument, Nat.add_comm]
          · rw [hneu]
            rw [List.chain'_append]
            refine ⟨h.kette, List.chain'_singleton _, ?_⟩
            intro x hx y hy
            simp only [List.head?_cons, Option.mem_def, Option.some.injEq] at hy
            subst hy
            rw [halt] at hx
            rw [List.getLast?_concat] at hx
            simp only [Option.mem_def, Option.some.injEq] at hx
            subst hx
            simp [neuesDokument, hbis]
          · rw [hneu]
            intro d hd
            rcases List.mem_append.mp hd with hd | hd
            · have := h.grenzen d hd
              exact ⟨this.1, this.2.1, by omega⟩
            · simp only [List.mem_singleton] at hd
              subst hd
              simp only [neuesDokument]
              omega
          · rw [hneu]
            intro d hd
            rcases List.mem_append.mp hd with hd | hd
            · exact h.vertrauen d hd
            · simp only [List.mem_singleton] at hd
              subst hd
              exact ⟨klassifiziert_konfidenz _ hks, berechneKonfidenz_hoechstens_eins _⟩
          · rw [hneu]
            simp [hk, neuesDokument]
          · simp [hk]

theorem segLauf_inv (oa : Bool) (ocr : ℕ → String) :
    ∀ (reste : List String) (m : ℕ) (st : SegZustand), SegInv m st →
      SegInv (m + reste.length) (segLauf oa ocr (m + 1) st reste) ∧
      (alleDokumente (segLauf oa ocr (m + 1) st reste)).map Dokument.seite_von
        = (alleDokumente st).map Dokument.seite_von ++ grenzSeitenAb oa ocr (m + 1) reste ∧
      (segLauf oa ocr (m + 1) st reste).zaehler
        = st.zaehler + anzahlGrenzen oa ocr (m + 1) reste := by
  intro reste
  induction reste with
  | nil =>
      intro m st h
      exact ⟨h, by simp [segLauf, grenzSeitenAb], by simp [segLauf, anzahlGrenzen, grenzSeitenAb]⟩
  | cons roh reste ih =>
      intro m st h
      obtain ⟨h1, h2, h3⟩ := verarbeiteSeite_inv oa ocr m st roh h
      obtain ⟨g1, g2, g3⟩ := ih (m + 1) (verarbeiteSeite oa ocr st (m + 1) roh) h1
      have hdef : segLauf oa ocr (m + 1) st (roh :: reste)
          = segLauf oa ocr (m + 1 + 1) (verarbeiteSeite oa ocr st (m + 1) roh) reste := rfl
      refine ⟨?_, ?_, ?_⟩
      · rw [hdef]
        have harith : m + 1 + reste.length = m + (roh :: reste).length := by
          simp
          omega
        exact harith ▸ g1
      · rw [hdef, g2, h2]
        cases hks : (klassifiziereSeite (seitenText oa ocr roh (m + 1))).isSome
        · simp [grenzSeitenAb, hks]
        · simp [grenzSeitenAb, hks]
      · rw [hdef, g3, h3]
        cases hks : (klassifiziereSeite (seitenText oa ocr roh (m + 1))).isSome
        · simp [anzahlGrenzen, grenzSeitenAb, hks]
        · simp [anzahlGrenzen, grenzSeitenAb, hks]
          omega

theorem segInv_start : SegInv 0 ⟨[], none, 0⟩ where
  geschlossenLeer := fun _ => ⟨rfl, rfl⟩
  offenEnde := fun cd h => by cases h
  nummern := rfl
  kette := by simp [alleDokumente]
  grenzen := by simp [alleDokumente]
  vertrauen := by simp [alleDokumente]

theorem erkenneDokumente_alle (oa : Bool) (ocr : ℕ → String) (texte : List String) :
    erkenneDokumente oa ocr texte
      = alleDokumente (segLauf oa ocr 1 ⟨[], none, 0⟩ texte) := by
  obtain ⟨hinv, -, -⟩ := segLauf_inv oa ocr texte 0 ⟨[], none, 0⟩ segInv_start
  rw [Nat.zero_add] at hinv
  cases ho : (segLauf oa ocr 1 ⟨[], none, 0⟩ texte).offen with
  | none =>
      rw [alleDokumente_zu _ ho]
      simp only [erkenneDokumente, ho]
  | some cd =>
      have hbis : cd.seite_bis = texte.length := hinv.offenEnde cd ho
      have heta : ({ cd with seite_bis := texte.length } : Dokument) = cd := by
        rw [← hbis]
      rw [alleDokumente_offen _ cd ho]
      simp only [erkenneDokumente, ho, heta]

theorem erkenne_von (oa : Bool) (ocr : ℕ → String) (texte : List String) :
    (erkenneDokumente oa ocr texte).map Dokument.seite_von
      = grenzSeitenAb oa ocr 1 texte := by
  obtain ⟨-, hvon, -⟩ := segLauf_inv oa ocr texte 0 ⟨[], none, 0⟩ segInv_start
  rw [erkenneDokumente_alle]
  simpa [alleDokumente] using hvon

theorem erkenne_id (oa : Bool) (ocr : ℕ → String) (texte : List String) :
    (erkenneDokumente oa ocr texte).map Dokument.id
      = List.range' 1 (anzahlGrenzen oa ocr 1 texte) := by
  obtain ⟨hinv, -, hz⟩ := segLauf_inv oa ocr texte 0 ⟨[], none, 0⟩ segInv_start
  rw [erkenneDokumente_alle]
  have := hinv.nummern
  rw [hz] at this
  simpa using this

theorem erkenne_kette (oa : Bool) (ocr : ℕ → String) (texte : List String) :
    (erkenneDokumente oa ocr texte).Chain' (fun a b => b.seite_von = a.seite_bis + 1) := by
  obtain ⟨hinv, -, -⟩ := segLauf_inv oa ocr texte 0 ⟨[], none, 0⟩ segInv_start
  rw [erkenneDokumente_alle]
  exact hinv.kette

theorem erkenne_grenzen (oa : Bool) (ocr : ℕ → String) (texte : List String) :
    ∀ d ∈ erkenneDokumente oa ocr texte,
      1 ≤ d.seite_von ∧ d.seite_von ≤ d.seite_bis ∧ d.seite_bis ≤ texte.length := by
  obtain ⟨hinv, -, -⟩ := segLauf_inv oa ocr texte 0 ⟨[], none, 0⟩ segInv_start
  rw [Nat.zero_add] at hinv
  rw [erkenneDokumente_alle]
  exact hinv.grenzen

theorem erkenne_vertrauen (oa : Bool) (ocr : ℕ → String) (texte : List String) :
    ∀ d ∈ erkenneDokumente oa ocr texte, 3/5 ≤ d.konfidenz ∧ d.konfidenz ≤ 1 := by
  obtain ⟨hinv, -, -⟩ := segLauf_inv oa ocr texte 0 ⟨[], none, 0⟩ segInv_start
  rw [erkenneDokumente_alle]
  exact hinv.vertrauen

theorem erkenne_letztes (oa : Bool) (ocr : ℕ → String) (texte : List String) :
    ∀ d, (erkenneDokumente oa ocr texte).getLast? = some d
      → d.seite_bis = texte.length := by
  obtain ⟨hinv, -, -⟩ := segLauf_inv oa ocr texte 0 ⟨[], none, 0⟩ segInv_start
  rw [Nat.zero_add] at hinv
  intro d hd
  rw [erkenneDokumente_alle] at hd
  cases ho : (segLauf oa ocr 1 ⟨[], none, 0⟩ texte).offen with
  | none =>
      obtain ⟨hfert, -⟩ := hinv.geschlossenLeer ho
      rw [alleDokumente_zu _ ho, hfert] at hd
      cases hd
  | some cd =>
      rw [alleDokumente_offen _ cd ho, List.getLast?_concat] at hd
      have hcd : cd = d := by
        simpa using hd
      rw [← hcd]
      exact hinv.offenEnde cd ho

theorem kette_zaehlung : ∀ (docs : List Dokument) (b n : ℕ),
    docs.Chain' (fun a c => c.seite_von = a.seite_bis + 1) →
    (∀ d ∈ docs, d.seite_von ≤ d.seite_bis) →
    docs.head?.map Dokument.seite_von = some b →
    docs.getLast?.map Dokument.seite_bis = some n →
    b ≤ n ∧ ∀ p, docs.countP (fun d => deckt d p) = if b ≤ p ∧ p ≤ n then 1 else 0
  | [], b, n, _, _, hb, _ => by simp at hb
  | [d], b, n, _, hwf, hb, hn => by
      simp only [List.head?_cons, Option.map_some', Option.some.injEq] at hb
      simp only [List.getLast?_singleton, Option.map_some', Option.some.injEq] at hn
      subst hb
      subst hn
      refine ⟨hwf d (by simp), ?_⟩
      intro p
      simp only [List.countP_cons, List.countP_nil, deckt, Bool.and_eq_true,
        decide_eq_true_eq]
      split_ifs <;> omega
  | d :: d' :: rest, b, n, hch, hwf, hb, hn => by
      obtain ⟨hrel, hch'⟩ := List.chain'_cons.mp hch
      have ihyp := kette_zaehlung (d' :: rest) d'.seite_von n hch'
        (fun e he => hwf e (by simp [he])) (by simp)
        (by simpa [List.getLast?_cons_cons] using hn)
      simp only [List.head?_cons, Option.map_some', Option.some.injEq] at hb
      subst hb
      have hdwf := hwf d (by simp)
      obtain ⟨hbn, hcount⟩ := ihyp
      rw [hrel] at hbn hcount
      refine ⟨by omega, ?_⟩
      intro p
      rw [List.countP_cons, hcount p]
      simp only [deckt, Bool.and_eq_true, decide_eq_true_eq]
      split_ifs <;> omega

theorem kette_getrennt : ∀ (docs : List Dokument),
    docs.Chain' (fun a c => c.seite_von = a.seite_bis + 1) →
    (∀ d ∈ docs, d.seite_von ≤ d.seite_bis) →
    docs.Pairwise (fun a c => a.seite_bis < c.seite_von)
  | [], _, _ => List.Pairwise.nil
  | [d], _, _ => by simp
  | d :: d' :: rest, hch, hwf => by
      obtain ⟨hrel, hch'⟩ := List.chain'_cons.mp hch
      have ih := kette_getrennt (d' :: rest) hch' (fun e he => hwf e (by simp [he]))
      refine List.Pairwise.cons ?_ ih
      intro e he
      rcases List.mem_cons.mp he with rfl | he'
      · omega
      · have h1 : d'.seite_bis < e.seite_von := (List.pairwise_cons.mp ih).1 e he'
        have h2 := hwf d' (by simp)
        omega

theorem grenzSeitenAb_mitglied (oa : Bool) (ocr : ℕ → String) :
    ∀ (reste : List String) (nr i : ℕ) (hi : i < reste.length),
      (klassifiziereSeite (seitenText oa ocr (reste.get ⟨i, hi⟩) (nr + i))).isSome →
      (nr + i) ∈ grenzSeitenAb oa ocr nr reste
  | roh :: rest, nr, 0, _, hk => by
      simp only [List.get] at hk
      simp only [Nat.add_zero] at hk ⊢
      simp [grenzSeitenAb, hk]
  | roh :: rest, nr, i + 1, hi, hk => by
      have hi' : i < rest.length := by
        simpa using hi
      have hk' : (klassifiziereSeite
          (seitenText oa ocr (rest.get ⟨i, hi'⟩) ((nr + 1) + i))).isSome := by
        have harith : (nr + 1) + i = nr + (i + 1) := by omega
        rw [harith]
        simpa [List.get] using hk
      have hmem := grenzSeitenAb_mitglied oa ocr rest (nr + 1) i hi' hk'
      have harith : (nr + 1) + i = nr + (i + 1) := by omega
      rw [harith] at hmem
      by_cases hko : (klassifiziereSeite (seitenText oa ocr roh nr)).isSome
      · simp [grenzSeitenAb, hko, hmem]
      · simp only [Bool.not_eq_true] at hko
        simp [grenzSeitenAb, hko, hmem]

theorem pyInt_nichtneg (q : ℚ) (h : 0 ≤ q) : 0 ≤ pyInt q := by
  unfold pyInt
  have hnum : 0 ≤ q.num := Rat.num_nonneg.mpr h
  have hden : (0 : ℤ) ≤ (q.den : ℤ) := by positivity
  exact Int.tdiv_nonneg hnum hden

theorem vorblattPunkte_nichtneg (av : Option Aktenvorblatt) : 0 ≤ vorblattPunkte av := by
  cases av with
  | none => norm_num [vorblattPunkte]
  | some a =>
      dsimp only [vorblattPunkte]
      split_ifs <;> norm_num

theorem dokumentPunkte_nichtneg (docs : List Dokument)
    (h : ∀ d ∈ docs, 0 ≤ d.konfidenz) : 0 ≤ dokumentPunkte docs := by
  dsimp only [dokumentPunkte]
  split_ifs with hleer
  · exact le_refl 0
  · have hlen : 0 < (docs.length : ℚ) := by
      have : docs ≠ [] := by simpa [List.isEmpty_iff] using hleer
      have : 0 < docs.length := List.length_pos.mpr this
      exact_mod_cast this
    have hsum : 0 ≤ (docs.map Dokument.konfidenz).sum := by
      refine List.sum_nonneg ?_
      intro x hx
      obtain ⟨d, hd, rfl⟩ := List.mem_map.mp hx
      exact h d hd
    have havg : 0 ≤ (docs.map Dokument.konfidenz).sum / (docs.length : ℚ) * 10 := by
      positivity
    have h1 : (0 : ℤ) ≤ min ((docs.length : ℤ) * 5) 30 := by
      refine le_min (by positivity) (by norm_num)
    have h2 := pyInt_nichtneg _ havg
    omega

theorem bewerteQualitaet_schranken (av : Option Aktenvorblatt) (docs : List Dokument)
    (h : ∀ d ∈ docs, 0 ≤ d.konfidenz) :
    0 ≤ bewerteQualitaet av docs ∧ bewerteQualitaet av docs ≤ 100 := by
  unfold bewerteQualitaet
  refine ⟨le_min ?_ (by norm_num), min_le_right _ _⟩
  have h1 := vorblattPunkte_nichtneg av
  have h2 := dokumentPunkte_nichtneg docs h
  omega

/-- Eine konkrete (triviale) Feldanalyse des Vorblatts für
Beispielrechnungen. -/
def leereVorblattExtraktion : String → Aktenvorblatt := fun _ => leeresVorblatt

theorem alleTexte_gut : ∀ liste : List Seite,
    extraktionSchlaegtFehl (.seiten liste) = false →
    alleTexte liste = .ok (seitenInhalte liste)
  | [], _ => rfl
  | s :: rest, h => by
      cases s with
      | defekt m => simp [extraktionSchlaegtFehl] at h
      | ok t =>
          have h' : extraktionSchlaegtFehl (.seiten rest) = false := by
            simpa [extraktionSchlaegtFehl] using h
          simp [alleTexte, seitenInhalte, alleTexte_gut rest h']

theorem alleTexte_schlecht : ∀ liste : List Seite,
    extraktionSchlaegtFehl (.seiten liste) = true →
    ∃ m, alleTexte liste = .error m
  | [], h => by simp [extraktionSchlaegtFehl] at h
  | s :: rest, h => by
      cases s with
      | defekt m => exact ⟨m, rfl⟩
      | ok t =>
          have h' : extraktionSchlaegtFehl (.seiten rest) = true := by
            simpa [extraktionSchlaegtFehl] using h
          obtain ⟨m, hm⟩ := alleTexte_schlecht rest h'
          exact ⟨m, by simp [alleTexte, hm]⟩

theorem analysierePdf_faelle (oa : Bool) (ocr : ℕ → String)
    (avEx : String → Aktenvorblatt) (q : PdfQuelle) :
    (∃ m, analysierePdf oa ocr avEx q = fehlerErgebnis m) ∨
    (∃ m av, analysierePdf oa ocr avEx q
        = { fehlerErgebnis m with aktenvorblatt := some av }) ∨
    (∃ av texte, analysierePdf oa ocr avEx q
        = { erfolg := true, aktenvorblatt := some av,
            dokumente := erkenneDokumente oa ocr texte,
            qualitaet := qualitaetText
              (bewerteQualitaet (some av) (erkenneDokumente oa ocr texte)),
            qualitaet_score :=
              bewerteQualitaet (some av) (erkenneDokumente oa ocr texte),
            fehler := [], warnungen := [] }) := by
  cases q with
  | unlesbar m => exact Or.inl ⟨m, rfl⟩
  | seiten liste =>
      cases hv : extrahiereVorblatt avEx liste with
      | error m =>
          refine Or.inl ⟨m, ?_⟩
          simp [analysierePdf, hv]
      | ok av =>
          cases ht : alleTexte liste with
          | error m =>
              refine Or.inr (Or.inl ⟨m, av, ?_⟩)
              simp [analysierePdf, hv, ht]
          | ok texte =>
              refine Or.inr (Or.inr ⟨av, texte, ?_⟩)
              simp [analysierePdf, hv, ht]

theorem analysierePdf_fehlschlag (oa : Bool) (ocr : ℕ → String)
    (avEx : String → Aktenvorblatt) (q : PdfQuelle)
    (h : extraktionSchlaegtFehl q = true) :
    (analysierePdf oa ocr avEx q).erfolg = false ∧
    (analysierePdf oa ocr avEx q).fehler.length = 1 ∧
    (analysierePdf oa ocr avEx q).dokumente = [] := by
  cases q with
  | unlesbar m => exact ⟨rfl, rfl, rfl⟩
  | seiten liste =>
      obtain ⟨m, hm⟩ := alleTexte_schlecht liste h
      cases liste with
      | nil => simp [extraktionSchlaegtFehl] at h
      | cons s rest =>
          cases s with
          | defekt mm => exact ⟨rfl, rfl, rfl⟩
          | ok t =>
              refine ⟨?_, ?_, ?_⟩ <;>
                simp [analysierePdf, extrahiereVorblatt, hm, fehlerErgebnis]

theorem analysierePdf_gelingt (oa : Bool) (ocr : ℕ → String)
    (avEx : String → Aktenvorblatt) (q : PdfQuelle)
    (h : extraktionSchlaegtFehl q = false) :
    (analysierePdf oa ocr avEx q).erfolg = true := by
  cases q with
  | unlesbar m => simp [extraktionSchlaegtFehl] at h
  | seiten liste =>
      have hok := alleTexte_gut liste h
      cases liste with
      | nil => rfl
      | cons s rest =>
          cases s with
          | defekt m => simp [extraktionSchlaegtFehl] at h
          | ok t => simp [analysierePdf, extrahiereVorblatt, hok]

theorem analysierePdf_dokumente (oa : Bool) (ocr : ℕ → String)
    (avEx : String → Aktenvorblatt) (liste : List Seite)
    (h : extraktionSchlaegtFehl (.seiten liste) = false) :
    (analysierePdf oa ocr avEx (.seiten liste)).dokumente
      = erkenneDokumente oa ocr (seitenInhalte liste) := by
  have hok := alleTexte_gut liste h
  cases liste with
  | nil => rfl
  | cons s rest =>
      cases s with
      | defekt m => simp [extraktionSchlaegtFehl] at h
      | ok t => simp [analysierePdf, extrahiereVorblatt, hok]

/-- C2: `_klassifiziere_seite` liefert für jeden Seitentext die erste
Regel der geordneten Tabelle, deren Muster passt (ohne Treffer:
keine); passt der Text auf zwei Regeln, gewinnt die frühere der
Tabelle, unabhängig von der Trefferposition.  Die Suche ist dabei
unverankert (sie findet das Muster ab jeder Position) und
unempfindlich gegen die Schreibung in Groß- oder Kleinbuchstaben. -/
theorem c2_erste_regel_gewinnt :
    (∀ (text : String) (vorher : List Regel) (r : Regel) (nachher : List Regel),
       DOKUMENT_MUSTER = vorher ++ r :: nachher →
       suche r.1 text.data = true →
       (∀ q ∈ vorher, suche q.1 text.data = false) →
       klassifiziereSeite text = some (r.2.1, r.2.2)) ∧
    (∀ text : String,
       (∀ q ∈ DOKUMENT_MUSTER, suche q.1 text.data = false) →
       klassifiziereSeite text = none) ∧
    (∀ (r : Rx) (cs : List Char),
       suche r cs = true ↔ ∃ i, passtVorne r (cs.drop i) = true) ∧
    (∀ (r : Rx) (cs : List Char), suche r (cs.map caseFold) = suche r cs) := by
  refine ⟨?_, ?_, suche_iff_position, suche_caseFold⟩
  · intro text vorher r nachher htab hr hv
    unfold klassifiziereSeite
    rw [htab]
    exact sucheErsteRegel_vorne text vorher r nachher hr hv
  · intro text h
    exact sucheErsteRegel_keine text DOKUMENT_MUSTER h

/-- Zeuge zu C2: "Beschluss über die Rechnung" passt auf Regel 8
(`Beschluss`) und auf die spätere Regel `Rechnung|Honorar`;
klassifiziert wird nach der früheren Regel. -/
theorem c2_zeuge :
    klassifiziereSeite "Beschluss über die Rechnung" = some ("Beschluss", "Gericht")
      ∧ suche (.oder (zf "Rechnung") (zf "Honorar")) "Beschluss über die Rechnung".data = true :=
  ⟨c2_erste_regel_gewinnt.1 "Beschluss über die Rechnung" (DOKUMENT_MUSTER.take 7)
      (zf "Beschluss", "Beschluss", "Gericht") (DOKUMENT_MUSTER.drop 8)
      (by rfl) (by decide) (by decide),
   by decide⟩

/-- C3: Schlägt die Extraktion irgendwo fehl (Datei unlesbar oder
eine Seite nicht extrahierbar), liefert `analysiere_pdf` ein Ergebnis
mit `erfolg = False`, genau einer beschreibenden Fehlermeldung und
leerer Dokumentliste; die Ausnahme dringt nie zum Aufrufer durch
(die Funktion ist total). -/
theorem c3_extraktionsfehler (oa : Bool) (ocr : ℕ → String)
    (avEx : String → Aktenvorblatt) (q : PdfQuelle)
    (h : extraktionSchlaegtFehl q = true) :
    (analysierePdf oa ocr avEx q).erfolg = false ∧
    (∃ m, (analysierePdf oa ocr avEx q).fehler = ["Fehler bei PDF-Analyse: " ++ m]) ∧
    (analysierePdf oa ocr avEx q).dokumente = [] := by
  obtain ⟨hf, hl, hd⟩ := analysierePdf_fehlschlag oa ocr avEx q h
  refine ⟨hf, ?_, hd⟩
  rcases analysierePdf_faelle oa ocr avEx q with ⟨m, hm⟩ | ⟨m, av, hm⟩ | ⟨av, texte, hm⟩
  · exact ⟨m, by rw [hm]; rfl⟩
  · exact ⟨m, by rw [hm]; rfl⟩
  · rw [hm] at hf
    simp at hf

/-- Zeuge zu C3: eine konkret unlesbare Datei. -/
theorem c3_zeuge :
    (analysierePdf false (fun _ => "") leereVorblattExtraktion
        (.unlesbar "Datei defekt")).erfolg = false ∧
    (∃ m, (analysierePdf false (fun _ => "") leereVorblattExtraktion
        (.unlesbar "Datei defekt")).fehler = ["Fehler bei PDF-Analyse: " ++ m]) ∧
    (analysierePdf false (fun _ => "") leereVorblattExtraktion
        (.unlesbar "Datei defekt")).dokumente = [] :=
  c3_extraktionsfehler false (fun _ => "") leereVorblattExtraktion
    (.unlesbar "Datei defekt") rfl

/-- C4: Die Gegenstandswert-Extraktion behandelt `.` als
Tausendertrennzeichen und `,` als Dezimaltrennzeichen:
"12.500,00" ergibt 12500.00, "500" ergibt 500.00, und ein
unbrauchbarer Wert ("abc") lässt das Feld ohne Ausnahme bei 0.0. -/
theorem c4_gegenstandswert :
    extrahiereGegenstandswert "Gegenstandswert: 12.500,00" = 12500 ∧
    extrahiereGegenstandswert "Gegenstandswert: 500" = 500 ∧
    extrahiereGegenstandswert "Gegenstandswert: abc" = 0 ∧
    extrahiereGegenstandswert "Streitwert: 1.234.567,89" = 123456789/100 := by
  refine ⟨?_, by decide, by decide, ?_⟩
  · have h1 : sucheWert "Gegenstandswert: 12.500,00".data = some "12.500,00".data := by
      decide
    have h2 : konvertiereWert "12.500,00".data = "12500.00".data := by decide
    have h3 : ("12500.00".data).splitOn '.' = ["12500".data, "00".data] := by decide
    have h4 : listeZuNat "12500".data = some 12500 := by decide
    have h5 : listeZuNat "00".data = some 0 := by decide
    simp only [extrahiereGegenstandswert, parseGleitkomma, h1, h2, h3, h4, h5]
    norm_num
  · have h1 : sucheWert "Streitwert: 1.234.567,89".data = some "1.234.567,89".data := by
      decide
    have h2 : konvertiereWert "1.234.567,89".data = "1234567.89".data := by decide
    have h3 : ("1234567.89".data).splitOn '.' = ["1234567".data, "89".data] := by decide
    have h4 : listeZuNat "1234567".data = some 1234567 := by decide
    have h5 : listeZuNat "89".data = some 89 := by decide
    simp only [extrahiereGegenstandswert, parseGleitkomma, h1, h2, h3, h4, h5]
    norm_num

/-- C8: Die Qualitätsstufe folgt festen Schwellen — ab 80 "sehr_gut"
(exzellent), 60 bis 79 "gut", 40 bis 59 "akzeptabel", darunter
"mangelhaft" — und ist stets eine dieser vier geordneten Stufen. -/
theorem c8_qualitaetsstufen (score : ℤ) :
    (80 ≤ score → qualitaetText score = "sehr_gut") ∧
    (60 ≤ score ∧ score < 80 → qualitaetText score = "gut") ∧
    (40 ≤ score ∧ score < 60 → qualitaetText score = "akzeptabel") ∧
    (score < 40 → qualitaetText score = "mangelhaft") ∧
    (qualitaetText score = "mangelhaft" ∨ qualitaetText score = "akzeptabel"
      ∨ qualitaetText score = "gut" ∨ qualitaetText score = "sehr_gut") := by
  unfold qualitaetText
  refine ⟨fun h => ?_, fun h => ?_, fun h => ?_, fun h => ?_, ?_⟩ <;>
    split_ifs <;> first | rfl | omega | simp
/-- Zeuge zu C8: je ein Wert pro Stufe. -/
theorem c8_zeuge :
    qualitaetText 85 = "sehr_gut" ∧ qualitaetText 70 = "gut"
      ∧ qualitaetText 45 = "akzeptabel" ∧ qualitaetText 10 = "mangelhaft" :=
  ⟨(c8_qualitaetsstufen 85).1 (by norm_num),
   (c8_qualitaetsstufen 70).2.1 (by norm_num),
   (c8_qualitaetsstufen 45).2.2.1 (by norm_num),
   (c8_qualitaetsstufen 10).2.2.2.1 (by norm_num)⟩

/-- C5: Der Qualitätsscore der Pipeline liegt stets in [0, 100], die
Konfidenz jedes gelieferten Dokuments stets in [0.0, 1.0]. -/
theorem c5_schranken :
    (∀ (oa : Bool) (ocr : ℕ → String) (avEx : String → Aktenvorblatt) (q : PdfQuelle),
       0 ≤ (analysierePdf oa ocr avEx q).qualitaet_score ∧
       (analysierePdf oa ocr avEx q).qualitaet_score ≤ 100) ∧
    (∀ (oa : Bool) (ocr : ℕ → String) (avEx : String → Aktenvorblatt) (q : PdfQuelle),
       ∀ d ∈ (analysierePdf oa ocr avEx q).dokumente,
         0 ≤ d.konfidenz ∧ d.konfidenz ≤ 1) := by
  constructor
  · intro oa ocr avEx q
    rcases analysierePdf_faelle oa ocr avEx q with ⟨m, hm⟩ | ⟨m, av, hm⟩ | ⟨av, texte, hm⟩ <;>
      rw [hm]
    · norm_num [fehlerErgebnis]
    · norm_num [fehlerErgebnis]
    · exact bewerteQualitaet_schranken _ _
        (fun d hd => le_trans (by norm_num) (erkenne_vertrauen oa ocr texte d hd).1)
  · intro oa ocr avEx q d hd
    rcases analysierePdf_faelle oa ocr avEx q with ⟨m, hm⟩ | ⟨m, av, hm⟩ | ⟨av, texte, hm⟩ <;>
      rw [hm] at hd
    · simp [fehlerErgebnis] at hd
    · simp [fehlerErgebnis] at hd
    · have hb := erkenne_vertrauen oa ocr texte d hd
      exact ⟨le_trans (by norm_num) hb.1, hb.2⟩

/-- Zeuge zu C5: eine konkrete einseitige Akte mit einem Dokument. -/
theorem c5_zeuge :
    0 ≤ (analysierePdf false (fun _ => "") leereVorblattExtraktion
        (.seiten [.ok "Abmahnung"])).qualitaet_score ∧
    (analysierePdf false (fun _ => "") leereVorblattExtraktion
        (.seiten [.ok "Abmahnung"])).qualitaet_score ≤ 100 ∧
    (0 ≤ (neuesDokument 1 1 "Abmahnung" "Abmahnung" "Arbeitgeber").konfidenz ∧
      (neuesDokument 1 1 "Abmahnung" "Abmahnung" "Arbeitgeber").konfidenz ≤ 1) :=
  ⟨(c5_schranken.1 false (fun _ => "") leereVorblattExtraktion (.seiten [.ok "Abmahnung"])).1,
   (c5_schranken.1 false (fun _ => "") leereVorblattExtraktion (.seiten [.ok "Abmahnung"])).2,
   c5_schranken.2 false (fun _ => "") leereVorblattExtraktion (.seiten [.ok "Abmahnung"])
     (neuesDokument 1 1 "Abmahnung" "Abmahnung" "Arbeitgeber")
     (List.mem_singleton.mpr rfl)⟩

/-- C9: Jedes vom Segmentierer erzeugte Dokument hat Konfidenz
mindestens 0.6: die Trefferzählung in `_berechne_konfidenz` zählt das
klassifizierende Muster mit, auf einer klassifizierten Seite zählt
also mindestens ein Muster, und zur Basis 0.5 kommt mindestens ein
Zuschlag 0.1. -/
theorem c9_mindestkonfidenz :
    (∀ text : String, (klassifiziereSeite text).isSome → 1 ≤ anzahlTreffer text) ∧
    (∀ (oa : Bool) (ocr : ℕ → String) (texte : List String),
       ∀ d ∈ erkenneDokumente oa ocr texte, 3/5 ≤ d.konfidenz) :=
  ⟨anzahlTreffer_pos,
   fun oa ocr texte d hd => (erkenne_vertrauen oa ocr texte d hd).1⟩

/-- Zeuge zu C9: die Seite "Abmahnung" trifft genau ein Muster und
ihr Dokument erhält Konfidenz mindestens 0.6. -/
theorem c9_zeuge :
    1 ≤ anzahlTreffer "Abmahnung" ∧
    3/5 ≤ (neuesDokument 1 1 "Abmahnung" "Abmahnung" "Arbeitgeber").konfidenz :=
  ⟨c9_mindestkonfidenz.1 "Abmahnung" (by decide),
   c9_mindestkonfidenz.2 false (fun _ => "") ["Abmahnung"]
     (neuesDokument 1 1 "Abmahnung" "Abmahnung" "Arbeitgeber")
     (List.mem_singleton.mpr rfl)⟩

/-- Gegenbeispiel zu C6 (wörtlicher Anspruch): auf der Seite
"Abmahnung" passt genau ein Tabellenmuster; nach dem
Anspruchswortlaut (0.1 nur je zusätzlichem Muster über das
klassifizierende hinaus) ergäbe sich 0.5, der Code liefert 0.6. -/
theorem c6_gegenbeispiel :
    (klassifiziereSeite "Abmahnung").isSome = true ∧
    anzahlTreffer "Abmahnung" = 1 ∧
    berechneKonfidenz "Abmahnung" = 3/5 ∧
    konfidenzLautAnspruch "Abmahnung" = 1/2 ∧
    berechneKonfidenz "Abmahnung" ≠ konfidenzLautAnspruch "Abmahnung" := by
  have ht : anzahlTreffer "Abmahnung" = 1 := by decide
  have hl : "Abmahnung".length = 9 := by decide
  have hb : berechneKonfidenz "Abmahnung" = 3/5 := by
    simp only [berechneKonfidenz, ht, hl]
    norm_num [min_def]
  have ha : konfidenzLautAnspruch "Abmahnung" = 1/2 := by
    simp only [konfidenzLautAnspruch, ht, hl]
    norm_num [min_def]
  refine ⟨by decide, ht, hb, ha, ?_⟩
  rw [hb, ha]
  norm_num

/-- C6 (berichtigt): Für jede klassifizierte Seite ist die Konfidenz
die Basis 0.5 plus 0.1 je im Text gefundenem Tabellenmuster
einschließlich des klassifizierenden (Beitrag gedeckelt bei 0.3),
plus 0.1 bei mehr als 500 und weitere 0.1 bei mehr als 1000 Zeichen,
insgesamt gedeckelt bei 1.0. -/
theorem c6_berichtigt (text : String) (_h : (klassifiziereSeite text).isSome) :
    berechneKonfidenz text = konfidenzLautBerichtigung text := by
  dsimp only [berechneKonfidenz, konfidenzLautBerichtigung]
  have hc : ((anzahlTreffer text : ℚ))
      = ((DOKUMENT_MUSTER.filter (fun r => suche r.1 text.data)).length : ℚ) := by
    norm_cast
    simp [anzahlTreffer, List.countP_eq_length_filter]
  rw [← hc]
  split_ifs <;> (congr 1 <;> ring)

/-- Zeuge zu C6 (berichtigt): die klassifizierte Seite "Abmahnung". -/
theorem c6_zeuge :
    berechneKonfidenz "Abmahnung" = konfidenzLautBerichtigung "Abmahnung" :=
  c6_berichtigt "Abmahnung" (by decide)

/-- C7: Drei Eingaben, die zweite mit fehlschlagender Extraktion:
der Stapelimport liefert genau drei Ergebnisse in Eingabereihenfolge,
jedes identisch zum jeweiligen Einzelimport, und genau eines — das
zweite — hat `erfolg = False`; der Fehlschlag bricht den Stapel nie
ab. -/
theorem c7_stapelisolierung (oa : Bool) (ocr : ℕ → String)
    (avEx : String → Aktenvorblatt) (q1 q2 q3 : PdfQuelle)
    (h1 : extraktionSchlaegtFehl q1 = false)
    (h2 : extraktionSchlaegtFehl q2 = true)
    (h3 : extraktionSchlaegtFehl q3 = false) :
    (importiereBatch oa ocr avEx [q1, q2, q3]).length = 3 ∧
    importiereBatch oa ocr avEx [q1, q2, q3]
      = [analysierePdf oa ocr avEx q1, analysierePdf oa ocr avEx q2,
         analysierePdf oa ocr avEx q3] ∧
    (importiereBatch oa ocr avEx [q1, q2, q3])[1]?
      = some (analysierePdf oa ocr avEx q2) ∧
    (analysierePdf oa ocr avEx q2).erfolg = false ∧
    (importiereBatch oa ocr avEx [q1, q2, q3]).countP (fun e => !e.erfolg) = 1 := by
  have e1 : (analysierePdf oa ocr avEx q1).erfolg = true :=
    analysierePdf_gelingt oa ocr avEx q1 h1
  have e2 : (analysierePdf oa ocr avEx q2).erfolg = false :=
    (analysierePdf_fehlschlag oa ocr avEx q2 h2).1
  have e3 : (analysierePdf oa ocr avEx q3).erfolg = true :=
    analysierePdf_gelingt oa ocr avEx q3 h3
  refine ⟨rfl, rfl, rfl, e2, ?_⟩
  simp [importiereBatch, e1, e2, e3]

/-- Zeuge zu C7: konkreter Stapel mit defekter zweiter Datei. -/
theorem c7_zeuge :
    importiereBatch false (fun _ => "") leereVorblattExtraktion
        [.seiten [.ok "Abmahnung"], .unlesbar "kaputt", .seiten [.ok ""]]
      = [analysierePdf false (fun _ => "") leereVorblattExtraktion (.seiten [.ok "Abmahnung"]),
         analysierePdf false (fun _ => "") leereVorblattExtraktion (.unlesbar "kaputt"),
         analysierePdf false (fun _ => "") leereVorblattExtraktion (.seiten [.ok ""])] ∧
    (importiereBatch false (fun _ => "") leereVorblattExtraktion
        [.seiten [.ok "Abmahnung"], .unlesbar "kaputt", .seiten [.ok ""]]).countP
        (fun e => !e.erfolg) = 1 :=
  ⟨(c7_stapelisolierung false (fun _ => "") leereVorblattExtraktion
      (.seiten [.ok "Abmahnung"]) (.unlesbar "kaputt") (.seiten [.ok ""])
      rfl rfl rfl).2.1,
   (c7_stapelisolierung false (fun _ => "") leereVorblattExtraktion
      (.seiten [.ok "Abmahnung"]) (.unlesbar "kaputt") (.seiten [.ok ""])
      rfl rfl rfl).2.2.2.2⟩

/-- C10: Jede Seite, deren Text klassifiziert wird, eröffnet ein
Dokument, das in der Endliste erscheint; der Abschlusswächter
`seite_bis ≥ seite_von` verwirft nie eines: die Dokumentzahl gleicht
der Zahl der Grenzseiten, die Startseiten sind genau die Grenzseiten
in Seitenreihenfolge, und die Nummern sind genau 1..k. -/
theorem c10_jede_grenze_ein_dokument :
    (∀ (oa : Bool) (ocr : ℕ → String) (texte : List String),
       (erkenneDokumente oa ocr texte).length = anzahlGrenzen oa ocr 1 texte ∧
       (erkenneDokumente oa ocr texte).map Dokument.id
         = List.range' 1 (anzahlGrenzen oa ocr 1 texte) ∧
       (erkenneDokumente oa ocr texte).map Dokument.seite_von
         = grenzSeitenAb oa ocr 1 texte) ∧
    (∀ (oa : Bool) (ocr : ℕ → String) (texte : List String) (i : ℕ)
       (hi : i < texte.length),
       (klassifiziereSeite (seitenText oa ocr (texte.get ⟨i, hi⟩) (i + 1))).isSome →
       (i + 1) ∈ (erkenneDokumente oa ocr texte).map Dokument.seite_von) := by
  constructor
  · intro oa ocr texte
    refine ⟨?_, erkenne_id oa ocr texte, erkenne_von oa ocr texte⟩
    have hlen := congrArg List.length (erkenne_id oa ocr texte)
    simpa using hlen
  · intro oa ocr texte i hi hk
    rw [erkenne_von]
    have harith : 1 + i = i + 1 := by omega
    have hmem := grenzSeitenAb_mitglied oa ocr texte 1 i hi (by rwa [harith])
    rwa [harith] at hmem

/-- Zeuge zu C10: Seite 2 von ["x", "Abmahnung"] wird klassifiziert
und ist Startseite eines Dokuments der Endliste. -/
theorem c10_zeuge :
    (2 : ℕ) ∈ (erkenneDokumente false (fun _ => "")
        ["x", "Abmahnung"]).map Dokument.seite_von :=
  c10_jede_grenze_ein_dokument.2 false (fun _ => "") ["x", "Abmahnung"] 1
    (by norm_num) (by decide)

/-- Gegenbeispiel zu C1 (wörtlicher Anspruch): eine einseitige PDF,
deren Seitentext auf keine Regel passt, liefert ein erfolgreiches
Ergebnis, dessen Dokumentliste Seite 1 nicht abdeckt — die
Vereinigung der Seitenbereiche ist leer und nicht [1, N]. -/
theorem c1_gegenbeispiel :
    (analysierePdf false (fun _ => "") leereVorblattExtraktion
        (.seiten [.ok ""])).erfolg = true ∧
    seitenzahl (.seiten [.ok ""]) = 1 ∧
    ((analysierePdf false (fun _ => "") leereVorblattExtraktion
        (.seiten [.ok ""])).dokumente.countP (fun d => deckt d 1)) = 0 := by
  decide

/-- C1 (berichtigt): Für jedes erfolgreiche Ergebnis einer PDF mit N
Seiten sind die Seitenbereiche wohlgeformt (`von ≤ bis` innerhalb
[1, N]), streng aufsteigend und lückenlos aneinander anschließend;
ihre Vereinigung ist genau [b, N] mit b = erste klassifizierte Seite:
jede Seite p mit b ≤ p ≤ N liegt in genau einem Dokument, jede Seite
davor — und ohne klassifizierte Seite jede Seite — in keinem. -/
theorem c1_berichtigt (oa : Bool) (ocr : ℕ → String)
    (avEx : String → Aktenvorblatt) (q : PdfQuelle)
    (h : (analysierePdf oa ocr avEx q).erfolg = true) :
    ((analysierePdf oa ocr avEx q).dokumente.Pairwise
        (fun a c => a.seite_bis < c.seite_von)) ∧
    ((analysierePdf oa ocr avEx q).dokumente.Chain'
        (fun a c => c.seite_von = a.seite_bis + 1)) ∧
    (∀ d ∈ (analysierePdf oa ocr avEx q).dokumente,
       1 ≤ d.seite_von ∧ d.seite_von ≤ d.seite_bis ∧ d.seite_bis ≤ seitenzahl q) ∧
    (∀ p, 1 ≤ p → p ≤ seitenzahl q →
       (analysierePdf oa ocr avEx q).dokumente.countP (fun d => deckt d p)
         = match ersteGrenzeVon oa ocr q with
           | none => 0
           | some b => if b ≤ p then 1 else 0) := by
  cases q with
  | unlesbar m => simp [analysierePdf, fehlerErgebnis] at h
  | seiten liste =>
      cases hfail : extraktionSchlaegtFehl (.seiten liste) with
      | true =>
          have := (analysierePdf_fehlschlag oa ocr avEx (.seiten liste) hfail).1
          rw [this] at h
          cases h
      | false =>
          have hdocs := analysierePdf_dokumente oa ocr avEx liste hfail
          have hN : (seitenInhalte liste).length = liste.length := List.length_map _ _
          have hkette := erkenne_kette oa ocr (seitenInhalte liste)
          have hgrenzen := erkenne_grenzen oa ocr (seitenInhalte liste)
          have hwf : ∀ d ∈ erkenneDokumente oa ocr (seitenInhalte liste),
              d.seite_von ≤ d.seite_bis := fun d hd => (hgrenzen d hd).2.1
          rw [hdocs]
          refine ⟨kette_getrennt _ hkette hwf, hkette, ?_, ?_⟩
          · intro d hd
            have := hgrenzen d hd
            exact ⟨this.1, this.2.1, by
              have := this.2.2
              simpa [seitenzahl, hN] using this⟩
          · intro p hp1 hp2
            have hvon := erkenne_von oa ocr (seitenInhalte liste)
            have hgv : ersteGrenzeVon oa ocr (.seiten liste)
                = (grenzSeitenAb oa ocr 1 (seitenInhalte liste)).head? := rfl
            cases hgl : grenzSeitenAb oa ocr 1 (seitenInhalte liste) with
            | nil =>
                have hleer : erkenneDokumente oa ocr (seitenInhalte liste) = [] := by
                  have := hvon
                  rw [hgl] at this
                  exact List.map_eq_nil_iff.mp this
                rw [hleer, hgv, hgl]
                rfl
            | cons b rest =>
                have hne : erkenneDokumente oa ocr (seitenInhalte liste) ≠ [] := by
                  intro hc
                  rw [hc, hgl] at hvon
                  cases hvon
                have hkopf : (erkenneDokumente oa ocr (seitenInhalte liste)).head?.map
                    Dokument.seite_von = some b := by
                  rw [← List.head?_map, hvon, hgl]
                  rfl
                obtain ⟨dl, hdl⟩ := List.getLast?_isSome.mpr hne |> Option.isSome_iff_exists.mp
                have hdlbis : dl.seite_bis = (seitenInhalte liste).length :=
                  erkenne_letztes oa ocr (seitenInhalte liste) dl hdl
                have hschluss : (erkenneDokumente oa ocr
                    (seitenInhalte liste)).getLast?.map Dokument.seite_bis
                    = some liste.length := by
                  rw [hdl]
                  simp [hdlbis, hN]
                obtain ⟨hbn, hcount⟩ := kette_zaehlung _ b liste.length hkette hwf
                  hkopf hschluss
                rw [hcount p, hgv, hgl]
                simp only [List.head?_cons]
                have hpN : p ≤ liste.length := by simpa [seitenzahl] using hp2
                split_ifs <;> omega

/-- Zeuge zu C1 (berichtigt): dreiseitige Akte, klassifiziert wird
erst Seite 2; Seite 1 liegt in keinem Dokument, die Seiten 2 und 3
in genau einem. -/
theorem c1_zeuge :
    (analysierePdf false (fun _ => "") leereVorblattExtraktion
        (.seiten [.ok "x", .ok "Abmahnung", .ok ""])).erfolg = true ∧
    ((analysierePdf false (fun _ => "") leereVorblattExtraktion
        (.seiten [.ok "x", .ok "Abmahnung", .ok ""])).dokumente.countP
        (fun d => deckt d 1)
      = match ersteGrenzeVon false (fun _ => "")
          (.seiten [.ok "x", .ok "Abmahnung", .ok ""]) with
        | none => 0
        | some b => if b ≤ 1 then 1 else 0) ∧
    ((analysierePdf false (fun _ => "") leereVorblattExtraktion
        (.seiten [.ok "x", .ok "Abmahnung", .ok ""])).dokumente.countP
        (fun d => deckt d 2)
      = match ersteGrenzeVon false (fun _ => "")
          (.seiten [.ok "x", .ok "Abmahnung", .ok ""]) with
        | none => 0
        | some b => if b ≤ 2 then 1 else 0) ∧
    ((analysierePdf false (fun _ => "") leereVorblattExtraktion
        (.seiten [.ok "x", .ok "Abmahnung", .ok ""])).dokumente.countP
        (fun d => deckt d 3)
      = match ersteGrenzeVon false (fun _ => "")
          (.seiten [.ok "x", .ok "Abmahnung", .ok ""]) with
        | none => 0
        | some b => if b ≤ 3 then 1 else 0) := by
  refine ⟨by decide, ?_, ?_, ?_⟩
  · exact (c1_berichtigt false (fun _ => "") leereVorblattExtraktion
      (.seiten [.ok "x", .ok "Abmahnung", .ok ""]) (by decide)).2.2.2 1
      (by norm_num) (by decide)
  · exact (c1_berichtigt false (fun _ => "") leereVorblattExtraktion
      (.seiten [.ok "x", .ok "Abmahnung", .ok ""]) (by decide)).2.2.2 2
      (by norm_num) (by decide)
  · exact (c1_berichtigt false (fun _ => "") leereVorblattExtraktion
      (.seiten [.ok "x", .ok "Abmahnung", .ok ""]) (by decide)).2.2.2 3
      (by norm_num) (by decide)
